import Mathlib

/-!
Verification development for the Polymarket datalake pipeline
(extractor_polymarket.py, transformer_data.py, loader_NeonDB.py).

Python runtime values are modelled by the mutual inductive `PyVal` /
`PyList` / `PyDict` (dictionaries keep insertion order, as CPython does).
The pandas NaN scalar gets its own constructor `nan` so that `pd.isna`
can be modelled. Fallible Python code is modelled with `Except PyErr`:
the one exception that can escape the transformer entry points is the
NumPy ValueError raised when the truth value of a multi-element boolean
array is taken, which happens when `pd.isna(value)` is evaluated in a
boolean context on a list-valued argument.
-/

instance {ε α : Type} [DecidableEq ε] [DecidableEq α] : DecidableEq (Except ε α)
  | .ok x, .ok y => decidable_of_iff (x = y) (by simp)
  | .error x, .error y => decidable_of_iff (x = y) (by simp)
  | .ok _, .error _ => isFalse (by simp)
  | .error _, .ok _ => isFalse (by simp)

namespace RA2

mutual
inductive PyVal : Type where
  | null : PyVal
  | bool (b : Bool) : PyVal
  | int (n : Int) : PyVal
  | float (x : Rat) : PyVal
  | nan : PyVal
  | str (s : String) : PyVal
  | list (xs : PyList) : PyVal
  | dict (d : PyDict) : PyVal

inductive PyList : Type where
  | nil : PyList
  | cons (head : PyVal) (tail : PyList) : PyList

inductive PyDict : Type where
  | nil : PyDict
  | cons (key : String) (val : PyVal) (tail : PyDict) : PyDict
end

/-- Converts a Lean list of values into the `PyList` spine (for readable literals). -/
def pyList : List PyVal → PyList
  | [] => .nil
  | v :: vs => .cons v (pyList vs)

/-- Converts a Lean association list into the `PyDict` spine. -/
def pyDict : List (String × PyVal) → PyDict
  | [] => .nil
  | (k, v) :: rest => .cons k v (pyDict rest)

/-- Python dictionary lookup `d.get(key)` / `d[key]`: in CPython a later
assignment of the same key overrides an earlier one, so the lookup returns
the value of the last matching entry of the spine. -/
def pyDictGet : PyDict → String → Option PyVal
  | .nil, _ => Option.none
  | .cons k v rest, key =>
      match pyDictGet rest key with
      | some w => some w
      | Option.none => if k = key then some v else Option.none

inductive PyErr : Type where
  | ambiguousTruth : PyErr
deriving DecidableEq

/-- Python truthiness `bool(value)` for the value shapes that occur here.
NaN is truthy; empty strings, empty containers, zero numbers and None are falsy. -/
def pyTruthy : PyVal → Bool
  | .null => false
  | .bool b => b
  | .int n => decide (n ≠ 0)
  | .float x => decide (x ≠ 0)
  | .nan => true
  | .str s => decide (s ≠ "")
  | .list .nil => false
  | .list _ => true
  | .dict .nil => false
  | .dict _ => true

/-- Scalar `pd.isna`: true exactly on None and NaN. -/
def pdIsnaScalar : PyVal → Bool
  | .null => true
  | .nan => true
  | _ => false

def isListVal : PyVal → Bool
  | .list _ => true
  | _ => false

def isDictVal : PyVal → Bool
  | .dict _ => true
  | _ => false

/-- Truth value of `pd.isna(value)` when used in a boolean context (as in
`if value is None or pd.isna(value):`). On a scalar this is `pdIsnaScalar`.
On a list, pandas returns an elementwise boolean ndarray, and NumPy only
allows a truth value for size-1 arrays: any other size raises
`ValueError: the truth value of an array ... is ambiguous`. -/
def isnaTruth : PyVal → Except PyErr Bool
  | .list (.cons x .nil) =>
      if isListVal x then .error .ambiguousTruth else .ok (pdIsnaScalar x)
  | .list _ => .error .ambiguousTruth
  | v => .ok (pdIsnaScalar v)

/-- Models the guard `if value is None or pd.isna(value):` used by
`normalize_boolean`, `normalize_numeric` and `clean_string`. -/
def nullGuard : PyVal → Except PyErr Bool
  | .null => .ok true
  | v => isnaTruth v

/-- Models the guard `if not value or pd.isna(value):` used by
`normalize_prices`, `normalize_outcomes` and `parse_tags`. -/
def falsyOrNaGuard (v : PyVal) : Except PyErr Bool :=
  if pyTruthy v then isnaTruth v else .ok true

/-! String helpers mirroring the CPython `str` methods used by the code. -/

/-- Characters stripped by Python `str.strip()` / split on by `str.split()`. -/
def pyIsSpace (c : Char) : Bool :=
  c = ' ' ∨ c = '\t' ∨ c = '\n' ∨ c = '\r' ∨ c = '\x0b' ∨ c = '\x0c'

def pyStrip (s : String) : String :=
  String.mk (((s.data.dropWhile pyIsSpace).reverse.dropWhile pyIsSpace).reverse)

def pySplitAux : List Char → List Char → List String
  | [], cur => if cur.isEmpty then [] else [String.mk cur.reverse]
  | c :: cs, cur =>
    if pyIsSpace c then
      if cur.isEmpty then pySplitAux cs [] else String.mk cur.reverse :: pySplitAux cs []
    else pySplitAux cs (c :: cur)

/-- Python `str.split()` with no argument: splits on runs of whitespace and
drops empty pieces. -/
def pySplit (s : String) : List String := pySplitAux s.data []

/-- Python `str.lower()` restricted to the alphabet this pipeline compares
against: ASCII letters plus the accented `Í` of the localized token `sí`. -/
def pyLowerChar (c : Char) : Char :=
  if 'A' ≤ c ∧ c ≤ 'Z' then Char.ofNat (c.toNat + 32)
  else if c = 'Í' then 'í' else c

def pyLower (s : String) : String := String.mk (s.data.map pyLowerChar)

def pyUpperChar (c : Char) : Char :=
  if 'a' ≤ c ∧ c ≤ 'z' then Char.ofNat (c.toNat - 32) else c

def pyUpper (s : String) : String := String.mk (s.data.map pyUpperChar)

/-- Python `s.startswith(c)` for a one-character prefix. -/
def startsWithChar (s : String) (c : Char) : Bool :=
  match s.data with
  | d :: _ => d = c
  | [] => false

/-- Python `str.replace(c, r)` for a single-character pattern (the only kind
this code base uses). -/
def pyReplaceChar (s : String) (c : Char) (r : String) : String :=
  String.mk ((s.data.map (fun d => if d = c then r.data else [d])).flatten)

/-- Python `str.count(c)` for a single-character needle. -/
def countChar (s : String) (c : Char) : Nat := s.data.count c

/-- Python `str.rfind(c)`: index of the last occurrence, `-1` if absent. -/
def pyRfind (s : String) (c : Char) : Int :=
  match s.data.reverse.findIdx? (fun d => d = c) with
  | some i => (s.data.length : Int) - 1 - (i : Int)
  | Option.none => -1

def decimalVal (ds : List Char) : Nat :=
  ds.foldl (fun a c => a * 10 + (c.toNat - 48)) 0

/-- Builds the rational `±(intDs.fracDs) · 10^exp` (via `mkRat`, which keeps
every definition kernel-reducible). -/
def sciRat (neg : Bool) (intDs fracDs : List Char) (exp : Int) : Rat :=
  let mant : Int := (decimalVal (intDs ++ fracDs) : Int)
  let mant : Int := if neg then -mant else mant
  let e : Int := exp - (fracDs.length : Int)
  if 0 ≤ e then mkRat (mant * ((10 ^ e.toNat : Nat) : Int)) 1
  else mkRat mant (10 ^ (-e).toNat)

/-- Python `float(s)` on its decimal-literal fragment: optional surrounding
whitespace, optional sign, digits with at most one dot (at least one digit
overall), optional exponent. The special tokens `inf` / `nan` and underscore
digit separators accepted by CPython never occur in this pipeline's data and
are outside the model; every other input raises ValueError, modelled as
`Option.none`. -/
def pyFloatOfString (s : String) : Option Rat :=
  let t := (pyStrip s).data
  let (neg, t) : Bool × List Char :=
    match t with
    | '-' :: r => (true, r)
    | '+' :: r => (false, r)
    | r => (false, r)
  let intDs := t.takeWhile Char.isDigit
  let t := t.dropWhile Char.isDigit
  let (fracDs, t) : List Char × List Char :=
    match t with
    | '.' :: r => (r.takeWhile Char.isDigit, r.dropWhile Char.isDigit)
    | r => ([], r)
  if intDs.isEmpty ∧ fracDs.isEmpty then Option.none
  else
    match t with
    | [] => some (sciRat neg intDs fracDs 0)
    | 'e' :: r | 'E' :: r =>
      let (eneg, r) : Bool × List Char :=
        match r with
        | '-' :: r2 => (true, r2)
        | '+' :: r2 => (false, r2)
        | r2 => (false, r2)
      let eds := r.takeWhile Char.isDigit
      let r := r.dropWhile Char.isDigit
      if eds.isEmpty ∨ ¬ r.isEmpty then Option.none
      else
        let e : Int := (decimalVal eds : Int)
        some (sciRat neg intDs fracDs (if eneg then -e else e))
    | _ => Option.none

/-- Counts how many times `p` divides `n` (with explicit fuel `n` itself). -/
def multCount (p : Nat) : Nat → Nat → Nat
  | _, 0 => 0
  | n, fuel + 1 => if 1 < n ∧ n % p = 0 then multCount p (n / p) fuel + 1 else 0

def natPad (k : Nat) (s : String) : String :=
  String.mk (List.replicate (k - s.length) '0') ++ s

/-- Python `str()` of a float value: exact for decimally-representable
rationals — the only finite floats this pipeline ever prints. The
scientific-notation switch for very large or small magnitudes is outside
the model. -/
def floatRepr (x : Rat) : String :=
  let a := multCount 2 x.den x.den
  let b := multCount 5 x.den x.den
  let k := max a b
  if x.den = 2 ^ a * 5 ^ b then
    let scaled : Int := x.num * (((10 ^ k : Nat) / x.den : Nat) : Int)
    let mag := scaled.natAbs
    let ip := mag / 10 ^ k
    let fp := mag % 10 ^ k
    let sign := if scaled < 0 then "-" else ""
    let fracStr := if k = 0 then "0" else natPad k (toString fp)
    sign ++ toString ip ++ "." ++ fracStr
  else toString x.num ++ "/" ++ toString x.den

mutual
/-- Python `repr(value)` (also `str` inside containers): strings quoted. -/
def pyRepr : PyVal → String
  | .null => "None"
  | .bool true => "True"
  | .bool false => "False"
  | .int n => toString n
  | .float x => floatRepr x
  | .nan => "nan"
  | .str s => "\x27" ++ s ++ "\x27"
  | .list xs => "[" ++ pyReprList xs ++ "]"
  | .dict d => "\x7b" ++ pyReprDict d ++ "\x7d"

def pyReprList : PyList → String
  | .nil => ""
  | .cons v .nil => pyRepr v
  | .cons v rest => pyRepr v ++ ", " ++ pyReprList rest

def pyReprDict : PyDict → String
  | .nil => ""
  | .cons k v .nil => "\x27" ++ k ++ "\x27: " ++ pyRepr v
  | .cons k v rest => "\x27" ++ k ++ "\x27: " ++ pyRepr v ++ ", " ++ pyReprDict rest
end

/-- Python `str(value)`: like `repr` except top-level strings are unquoted. -/
def pyStr : PyVal → String
  | .str s => s
  | v => pyRepr v

/-! DataTransformer value normalizers, from src/utils/transformer_data.py. -/

/-- Python `int(x)` on a float: truncation toward zero, which on a reduced
fraction is the T-division of the numerator by the denominator. -/
def pyTrunc (x : Rat) : Int := Int.tdiv x.num (x.den : Int)

/-- `DataTransformer.normalize_boolean` (transformer_data.py lines 21-43):
None/NaN guard, native bools pass through, numerics map through
`bool(int(value))`, strings are lowercased+stripped and matched against the
fixed truthy/falsy token sets, anything else yields None. -/
def normalize_boolean (v : PyVal) : Except PyErr (Option Bool) :=
  match nullGuard v with
  | .error e => .error e
  | .ok true => .ok Option.none
  | .ok false =>
    match v with
    | .bool b => .ok (some b)
    | .int n => .ok (some (decide (n ≠ 0)))
    | .float x => .ok (some (decide (pyTrunc x ≠ 0)))
    | .str s =>
      let lower := pyStrip (pyLower s)
      if lower ∈ ["true", "yes", "1", "t", "y", "si", "sí"] then .ok (some true)
      else if lower ∈ ["false", "no", "0", "f", "n"] then .ok (some false)
      else .ok Option.none
    | _ => .ok Option.none

/-- `DataTransformer.normalize_numeric` (transformer_data.py lines 45-78):
None/NaN guard, native numbers (bools included, as `isinstance(value,
(int, float))` is true for bools) map to float, strings are stripped and
then disambiguated: European decimal format when there are dots, exactly
one comma and the comma is right of the last dot; thousands-comma removal
when there are commas and zero dots; finally parsed with `float()`. -/
def normalize_numeric (v : PyVal) : Except PyErr (Option Rat) :=
  match nullGuard v with
  | .error e => .error e
  | .ok true => .ok Option.none
  | .ok false =>
    match v with
    | .bool b => .ok (some (if b then mkRat 1 1 else mkRat 0 1))
    | .int n => .ok (some (mkRat n 1))
    | .float x => .ok (some x)
    | .str s0 =>
      let s := pyStrip s0
      if s = "" then .ok Option.none
      else
        let dots := countChar s '.'
        let commas := countChar s ','
        let s :=
          if 0 < dots ∧ commas = 1 ∧ pyRfind s ',' > pyRfind s '.' then
            pyReplaceChar (pyReplaceChar s '.' "") ',' "."
          else if 0 < commas ∧ dots = 0 then
            pyReplaceChar s ',' ""
          else s
        .ok (pyFloatOfString s)
    | _ => .ok Option.none

/-- Core of `DataTransformer.clean_string` after the None/NaN guard
(transformer_data.py lines 80-100): `str()`-convert and strip, empty maps
to None, whitespace runs collapse to single spaces via
`' '.join(value.split())`, control characters below 32 other than
newline/tab/carriage-return are removed, the result is truncated to
`max_length` code points, and an empty result maps to None. -/
def cleanStringCore (s : String) (maxLength : Nat) : Option String :=
  let s := pyStrip s
  if s = "" then Option.none
  else
    let s := " ".intercalate (pySplit s)
    let s := String.mk (s.data.filter
      (fun c => decide (32 ≤ c.toNat) || c == '\n' || c == '\t' || c == '\r'))
    let s := String.mk (s.data.take maxLength)
    if s = "" then Option.none else some s

/-- `DataTransformer.clean_string` (transformer_data.py lines 80-100). -/
def clean_string (v : PyVal) (maxLength : Nat) : Except PyErr (Option String) :=
  match nullGuard v with
  | .error e => .error e
  | .ok true => .ok Option.none
  | .ok false => .ok (cleanStringCore (pyStr v) maxLength)

/-! JSON deserialization, modelling Python `json.loads` on strict JSON
(objects, arrays, strings with escapes, numbers, true/false/null). The
non-standard NaN/Infinity extensions CPython also accepts never occur in
this pipeline's data and are outside the model. The parser is fuelled;
`jsonLoads` supplies fuel that is always sufficient because every two
levels of recursion consume at least one input character. -/

def jskipWs : List Char → List Char
  | c :: cs => if c = ' ' ∨ c = '\t' ∨ c = '\n' ∨ c = '\r' then jskipWs cs else c :: cs
  | [] => []

def hexVal (c : Char) : Option Nat :=
  if '0' ≤ c ∧ c ≤ '9' then some (c.toNat - 48)
  else if 'a' ≤ c ∧ c ≤ 'f' then some (c.toNat - 87)
  else if 'A' ≤ c ∧ c ≤ 'F' then some (c.toNat - 55)
  else Option.none

def parseJString : Nat → List Char → List Char → Option (String × List Char)
  | 0, _, _ => Option.none
  | fuel + 1, acc, cs =>
    match cs with
    | [] => Option.none
    | '"' :: rest => some (String.mk acc.reverse, rest)
    | '\\' :: e :: rest =>
      match e with
      | '"' => parseJString fuel ('"' :: acc) rest
      | '\\' => parseJString fuel ('\\' :: acc) rest
      | '/' => parseJString fuel ('/' :: acc) rest
      | 'b' => parseJString fuel ('\x08' :: acc) rest
      | 'f' => parseJString fuel ('\x0c' :: acc) rest
      | 'n' => parseJString fuel ('\n' :: acc) rest
      | 'r' => parseJString fuel ('\r' :: acc) rest
      | 't' => parseJString fuel ('\t' :: acc) rest
      | 'u' =>
        match rest with
        | h1 :: h2 :: h3 :: h4 :: rest2 =>
          match hexVal h1, hexVal h2, hexVal h3, hexVal h4 with
          | some a, some b, some c, some d =>
            parseJString fuel (Char.ofNat (((a * 16 + b) * 16 + c) * 16 + d) :: acc) rest2
          | _, _, _, _ => Option.none
        | _ => Option.none
      | _ => Option.none
    | c :: rest => if c.toNat < 32 then Option.none else parseJString fuel (c :: acc) rest

/-- Parses a strict-JSON number: optional minus, integer part without leading
zeros, optional fraction, optional exponent. An integer literal yields a
Python int, anything with a fraction or exponent a Python float. -/
def parseJNumber (cs : List Char) : Option (PyVal × List Char) :=
  let (neg, cs1) : Bool × List Char :=
    match cs with
    | '-' :: r => (true, r)
    | r => (false, r)
  let intDs := cs1.takeWhile Char.isDigit
  let rest := cs1.dropWhile Char.isDigit
  if intDs.isEmpty then Option.none
  else if 1 < intDs.length ∧ intDs.headD '0' = '0' then Option.none
  else
    let (fracDs, rest2, isFrac) : List Char × List Char × Bool :=
      match rest with
      | '.' :: r => (r.takeWhile Char.isDigit, r.dropWhile Char.isDigit, true)
      | r => ([], r, false)
    if isFrac ∧ fracDs.isEmpty then Option.none
    else
      match rest2 with
      | 'e' :: r | 'E' :: r =>
        let (eneg, r2) : Bool × List Char :=
          match r with
          | '-' :: t => (true, t)
          | '+' :: t => (false, t)
          | t => (false, t)
        let eds := r2.takeWhile Char.isDigit
        let r3 := r2.dropWhile Char.isDigit
        if eds.isEmpty then Option.none
        else
          let e : Int := (decimalVal eds : Int)
          some (.float (sciRat neg intDs fracDs (if eneg then -e else e)), r3)
      | r =>
        if isFrac then some (.float (sciRat neg intDs fracDs 0), r)
        else
          let n : Int := (decimalVal intDs : Int)
          some (.int (if neg then -n else n), r)

mutual
def parseJVal : Nat → List Char → Option (PyVal × List Char)
  | 0, _ => Option.none
  | fuel + 1, cs =>
    match jskipWs cs with
    | '"' :: rest => (parseJString fuel [] rest).map (fun p => (.str p.1, p.2))
    | '[' :: rest =>
      (match jskipWs rest with
       | ']' :: r2 => some (.list .nil, r2)
       | rest2 => (parseJItems fuel rest2).map (fun p => (.list p.1, p.2)))
    | '\x7b' :: rest =>
      (match jskipWs rest with
       | '\x7d' :: r2 => some (.dict .nil, r2)
       | rest2 => (parseJMembers fuel rest2).map (fun p => (.dict p.1, p.2)))
    | 't' :: 'r' :: 'u' :: 'e' :: r => some (.bool true, r)
    | 'f' :: 'a' :: 'l' :: 's' :: 'e' :: r => some (.bool false, r)
    | 'n' :: 'u' :: 'l' :: 'l' :: r => some (.null, r)
    | rest => parseJNumber rest

def parseJItems : Nat → List Char → Option (PyList × List Char)
  | 0, _ => Option.none
  | fuel + 1, cs =>
    match parseJVal fuel cs with
    | Option.none => Option.none
    | some (v, r) =>
      match jskipWs r with
      | ',' :: r2 => (parseJItems fuel r2).map (fun p => (.cons v p.1, p.2))
      | ']' :: r2 => some (.cons v .nil, r2)
      | _ => Option.none

def parseJMembers : Nat → List Char → Option (PyDict × List Char)
  | 0, _ => Option.none
  | fuel + 1, cs =>
    match jskipWs cs with
    | '"' :: rest =>
      (match parseJString fuel [] rest with
       | Option.none => Option.none
       | some (k, r) =>
         match jskipWs r with
         | ':' :: r2 =>
           (match parseJVal fuel r2 with
            | Option.none => Option.none
            | some (v, r3) =>
              match jskipWs r3 with
              | ',' :: r4 => (parseJMembers fuel r4).map (fun p => (.cons k v p.1, p.2))
              | '\x7d' :: r4 => some (.cons k v .nil, r4)
              | _ => Option.none)
         | _ => Option.none)
    | _ => Option.none
end

/-- Python `json.loads` on strict JSON: parse one value, then require only
trailing whitespace. Parse failures (Python `json.JSONDecodeError`) are
`Option.none`; every caller in this code base catches them. -/
def jsonLoads (s : String) : Option PyVal :=
  match parseJVal (2 * s.length + 2) s.data with
  | some (v, rest) => if (jskipWs rest).isEmpty then some v else Option.none
  | Option.none => Option.none

/-! The three list-valued normalizers of transformer_data.py. Each accepts a
native list or a Python-literal-looking string (single quotes rewritten to
double quotes, then `json.loads`), and coerces elements independently. -/

/-- Element loop of `normalize_prices` (lines 125-134): strings go through
`float()` with `ValueError` skipped, ints/floats/bools through `float(price)`
(a NaN element stays NaN), anything else is ignored. -/
def pricesFromList : PyList → List PyVal
  | .nil => []
  | .cons p rest =>
    (match p with
     | .str s =>
       (match pyFloatOfString s with
        | some r => [PyVal.float r]
        | Option.none => [])
     | .bool b => [PyVal.float (if b then mkRat 1 1 else mkRat 0 1)]
     | .int n => [PyVal.float (mkRat n 1)]
     | .float x => [PyVal.float x]
     | .nan => [PyVal.nan]
     | _ => []) ++ pricesFromList rest

/-- `DataTransformer.normalize_prices` (transformer_data.py lines 102-140). -/
def normalize_prices (v : PyVal) : Except PyErr (Option PyList) :=
  match falsyOrNaGuard v with
  | .error e => .error e
  | .ok true => .ok Option.none
  | .ok false =>
    .ok (
      let parsed : Option PyList :=
        match v with
        | .str s0 =>
          let s := pyStrip s0
          if startsWithChar s '[' then
            match jsonLoads (pyReplaceChar s '\x27' "\"") with
            | some (.list ps) => some ps
            | _ => Option.none
          else Option.none
        | .list ps => some ps
        | _ => Option.none
      match parsed with
      | Option.none => Option.none
      | some ps =>
        match pricesFromList ps with
        | [] => Option.none
        | rs => some (pyList rs))

/-- Element loop of `normalize_outcomes` (lines 164-170): string elements are
stripped, uppercased and kept when non-empty; every other element type is
ignored. -/
def outcomesFromList : PyList → List String
  | .nil => []
  | .cons o rest =>
    (match o with
     | .str s =>
       let s2 := pyUpper (pyStrip s)
       if s2 = "" then [] else [s2]
     | _ => []) ++ outcomesFromList rest

/-- `DataTransformer.normalize_outcomes` (transformer_data.py lines 142-176). -/
def normalize_outcomes (v : PyVal) : Except PyErr (Option (List String)) :=
  match falsyOrNaGuard v with
  | .error e => .error e
  | .ok true => .ok Option.none
  | .ok false =>
    .ok (
      let parsed : Option PyList :=
        match v with
        | .str s0 =>
          let s := pyStrip s0
          if startsWithChar s '[' then
            match jsonLoads (pyReplaceChar s '\x27' "\"") with
            | some (.list ps) => some ps
            | _ => Option.none
          else Option.none
        | .list ps => some ps
        | _ => Option.none
      match parsed with
      | Option.none => Option.none
      | some ps =>
        match outcomesFromList ps with
        | [] => Option.none
        | rs => some rs)

/-- Element loop of `parse_tags` (lines 201-206): string elements stripped,
lowercased, kept when non-empty. -/
def tagsFromList : PyList → List String
  | .nil => []
  | .cons t rest =>
    (match t with
     | .str s =>
       let s2 := pyLower (pyStrip s)
       if s2 = "" then [] else [s2]
     | _ => []) ++ tagsFromList rest

/-- Order-preserving model of `list(set(result))`: CPython's set iteration
order is unspecified, so the embedding fixes the first-occurrence order. -/
def dedupFirst (l : List String) : List String :=
  l.foldl (fun acc x => if x ∈ acc then acc else acc ++ [x]) []

/-- `DataTransformer.parse_tags` (transformer_data.py lines 178-212). -/
def parse_tags (v : PyVal) : Except PyErr (Option (List String)) :=
  match falsyOrNaGuard v with
  | .error e => .error e
  | .ok true => .ok Option.none
  | .ok false =>
    .ok (
      let parsed : Option PyList :=
        match v with
        | .str s0 =>
          let s := pyStrip s0
          if startsWithChar s '[' then
            match jsonLoads (pyReplaceChar s '\x27' "\"") with
            | some (.list ps) => some ps
            | _ => Option.none
          else Option.none
        | .list ps => some ps
        | _ => Option.none
      match parsed with
      | Option.none => Option.none
      | some ps =>
        match tagsFromList ps with
        | [] => Option.none
        | rs => some (dedupFirst rs))

/-! Substring containment, modelling the Python `in` operator on strings. -/

def leadsWith : List Char → List Char → Bool
  | [], _ => true
  | _ :: _, [] => false
  | a :: as, b :: bs => a = b && leadsWith as bs

def containsAux (pat : List Char) : List Char → Bool
  | [] => leadsWith pat []
  | c :: cs => leadsWith pat (c :: cs) || containsAux pat cs

/-- Python `sub in s` for strings. -/
def strContains (s sub : String) : Bool := containsAux sub.data s.data

/-- Keyword table `game_mapping` of `DataTransformer.extract_gaming_type`
(transformer_data.py lines 371-387), in CPython dict insertion order. -/
def game_mapping : List (String × List String) :=
  [ ("DOTA", ["dota", "dota 2", "dota2"]),
    ("Valorant", ["valorant"]),
    ("CS:GO", ["cs:go", "csgo", "counter-strike"]),
    ("League of Legends", ["league of legends", "lol", "leagueoflegends"]),
    ("Fortnite", ["fortnite"]),
    ("Minecraft", ["minecraft"]),
    ("Overwatch", ["overwatch"]),
    ("Apex Legends", ["apex", "apex legends"]),
    ("Call of Duty", ["call of duty", "cod"]),
    ("Hearthstone", ["hearthstone"]),
    ("StarCraft", ["starcraft", "starcraft 2", "sc2"]),
    ("Dota2", ["the international", "ti8", "ti9", "ti10", "ti11"]),
    ("Fighting Games", ["fighting", "street fighter", "tekken", "mortal kombat"]),
    ("Esports", ["esports", "esport", "tournament", "champion"]),
    ("Streaming", ["twitch", "youtube", "streamer", "streaming"]) ]

/-- `DataTransformer.extract_gaming_type` (transformer_data.py lines 359-398):
empty/None/NaN yields None, otherwise the first entry of `game_mapping` (in
order) with a keyword occurring in the lowercased question wins; if none
matches but the word `game` or `gaming` occurs, the generic label `Gaming`
is produced, else None. -/
def extract_gaming_type (question : PyVal) : Option String :=
  if ¬ pyTruthy question ∨ pdIsnaScalar question then Option.none
  else
    let ql := pyLower (pyStr question)
    match game_mapping.find? (fun p => p.2.any (fun kw => strContains ql kw)) with
    | some p => some p.1
    | Option.none =>
      if strContains ql "game" || strContains ql "gaming" then some "Gaming"
      else Option.none

/-! PolymarketExtractor, from src/extractor/extractor_polymarket.py. -/

/-- Outcome of one HTTP page request, as seen by `fetch_page`: either a
2xx response with a JSON-decoded body, or one of the two caught failure
modes (`requests.exceptions.RequestException`, which `raise_for_status`
turns non-2xx statuses into, and `json.JSONDecodeError`). -/
inductive ApiResponse : Type where
  | success (body : PyVal) : ApiResponse
  | requestError : ApiResponse
  | jsonError : ApiResponse

/-- `PolymarketExtractor.fetch_page` (extractor_polymarket.py lines 59-91)
response-shape dispatch: a JSON array is returned as is; a JSON object is
probed for a `data` key, then for a key equal to the endpoint name, and
failing both is wrapped as a one-element list; any other body shape falls
through to `return []`; both caught error classes yield `[]`. The value
found under `data`/endpoint is returned unchanged, whatever its type. -/
def fetch_page (endpoint : String) (resp : ApiResponse) : PyVal :=
  match resp with
  | .requestError => .list .nil
  | .jsonError => .list .nil
  | .success data =>
    match data with
    | .list xs => .list xs
    | .dict d =>
      (match pyDictGet d "data" with
       | some v => v
       | Option.none =>
         match pyDictGet d endpoint with
         | some v => v
         | Option.none => .list (.cons (.dict d) .nil))
    | _ => .list .nil

/-- One round of `extract_endpoint_parallel` (lines 101-123): the `threads`
concurrent page requests at offsets `offset + i * pageSize` are awaited and
their results concatenated into `batch_data`. Completion order of the
threads is nondeterministic; the model fixes submission order, which is
irrelevant to every length-based property. -/
def fetchRound {α : Type} (api : Nat → List α) (offset pageSize threads : Nat) : List α :=
  (List.range threads).flatMap (fun i => api (offset + i * pageSize))

/-- The `while True` loop of `PolymarketExtractor.extract_endpoint_parallel`
(extractor_polymarket.py lines 101-138), with explicit fuel for the
unbounded loop: an empty round stops without appending; a round shorter
than `threads * pageSize` is appended and stops; a full round is appended
and the loop continues at `offset + threads * pageSize`. -/
def extractLoop {α : Type} (api : Nat → List α) (threads pageSize : Nat) :
    Nat → Nat → List α → List α
  | 0, _, acc => acc
  | fuel + 1, offset, acc =>
    let batch := fetchRound api offset pageSize threads
    if batch.isEmpty then acc
    else if batch.length < threads * pageSize then acc ++ batch
    else extractLoop api threads pageSize fuel (offset + threads * pageSize) (acc ++ batch)

/-- `PolymarketExtractor.extract_endpoint_parallel` (lines 93-141): runs the
round loop from offset 0 with an empty accumulator and returns `all_data`. -/
def extract_endpoint_parallel {α : Type} (api : Nat → List α)
    (threads pageSize fuel : Nat) : List α :=
  extractLoop api threads pageSize fuel 0 []

/-- Number of rounds of page requests the loop issues before terminating. -/
def extractRoundsCount {α : Type} (api : Nat → List α) (threads pageSize : Nat) :
    Nat → Nat → Nat
  | 0, _ => 0
  | fuel + 1, offset =>
    let batch := fetchRound api offset pageSize threads
    if batch.isEmpty then 1
    else if batch.length < threads * pageSize then 1
    else 1 + extractRoundsCount api threads pageSize fuel (offset + threads * pageSize)

/-- The offsets at which the loop ever issues a page request. -/
def requestedOffsets {α : Type} (api : Nat → List α) (threads pageSize : Nat) :
    Nat → Nat → List Nat
  | 0, _ => []
  | fuel + 1, offset =>
    let reqs := (List.range threads).map (fun i => offset + i * pageSize)
    let batch := fetchRound api offset pageSize threads
    if batch.isEmpty then reqs
    else if batch.length < threads * pageSize then reqs
    else reqs ++ requestedOffsets api threads pageSize fuel (offset + threads * pageSize)

/-! WarehouseLoader, from src/warehouse/loader_NeonDB.py. -/

/-- The seeded game-type catalog inserted into `dim_videojuego` by
`WarehouseLoader.create_schema_gaming` (loader_NeonDB.py lines 115-129):
(nombre_juego, genero, es_esports). -/
def dimVideojuegoSeed : List (String × String × Bool) :=
  [ ("DOTA",              "MOBA",          true),
    ("Valorant",          "FPS Táctico",   true),
    ("CS:GO",             "FPS Táctico",   true),
    ("League of Legends", "MOBA",          true),
    ("Fortnite",          "Battle Royale", true),
    ("Overwatch",         "Hero Shooter",  true),
    ("Apex Legends",      "Battle Royale", true),
    ("Call of Duty",      "FPS",           true),
    ("Rocket League",     "Deportes",      true),
    ("Hearthstone",       "Cartas",        true),
    ("StarCraft",         "RTS",           true),
    ("Rainbow Six",       "FPS Táctico",   true),
    ("Esports General",   "Esports",       true) ]

/-- `WarehouseLoader._get_videojuego_map` (lines 258-261): maps each seeded
nombre_juego to its SERIAL videojuego_id (1-based insertion order). -/
def videojuegoMap : List (String × Nat) :=
  dimVideojuegoSeed.enum.map (fun p => (p.2.1, p.1 + 1))

def lookupVideojuego (name : String) : Option Nat :=
  (videojuegoMap.find? (fun p => decide (p.1 = name))).map (fun p => p.2)

/-- The videojuego_id assigned to a market row by
`WarehouseLoader.load_dim_mercado_gaming` (loader_NeonDB.py lines 562-563):
`gaming_type = r.get('gaming_type') or 'Other Gaming'` followed by
`juego_map.get(gaming_type, juego_map.get('Other Gaming'))`. -/
def videojuegoIdFor (gamingType : Option String) : Option Nat :=
  let gt : String :=
    match gamingType with
    | some g => if g = "" then "Other Gaming" else g
    | Option.none => "Other Gaming"
  match lookupVideojuego gt with
  | some i => some i
  | Option.none => lookupVideojuego "Other Gaming"

/-! Market-event relation load (loader_NeonDB.py lines 454-511). -/

/-- One row of the markets DataFrame as
`load_relations_mercado_evento_gaming` reads it: the `id` cell and the
`events` cell (the latter holds the JSON-in-string embedded event objects
written by `save_to_deltalake`, or None/NaN when absent). -/
structure MarketRow : Type where
  id : PyVal
  events : PyVal

/-- Inner loop over a parsed `events` JSON array (loader lines 475-482):
dict items contribute their truthy `id` field, non-None scalar items are
stringified directly, everything else is skipped. -/
def pairsFromItems (mercadoId : String) : PyList → List (String × String)
  | .nil => []
  | .cons item rest =>
    (match item with
     | .dict d =>
       (match pyDictGet d "id" with
        | some eid => if pyTruthy eid then [(mercadoId, pyStr eid)] else []
        | Option.none => [])
     | .null => []
     | other => [(mercadoId, pyStr other)]) ++ pairsFromItems mercadoId rest

/-- Candidate (mercado_id, evento_id) pairs contributed by one market row
(loader lines 462-488): skip rows with a NaN/None or empty id; skip
None/NaN, empty, `nan`, `None` and `[]` events cells; rewrite single to
double quotes and `json.loads`; a JSON array contributes one pair per item,
a JSON object contributes its truthy `id`; parse failures are swallowed. -/
def relationPairsOfRow (row : MarketRow) : List (String × String) :=
  if pdIsnaScalar row.id then []
  else
    let mercadoId := pyStr row.id
    if mercadoId = "" then []
    else
      match row.events with
      | .null => []
      | .nan => []
      | val =>
        let raw := pyStrip (pyStr val)
        if raw = "" ∨ raw = "nan" ∨ raw = "None" ∨ raw = "[]" then []
        else
          match jsonLoads (pyReplaceChar raw '\x27' "\"") with
          | some (.list items) => pairsFromItems mercadoId items
          | some (.dict d) =>
            (match pyDictGet d "id" with
             | some eid => if pyTruthy eid then [(mercadoId, pyStr eid)] else []
             | Option.none => [])
          | _ => []

/-- `WarehouseLoader.load_relations_mercado_evento_gaming` (loader lines
454-511), modelled up to the insert statement: the candidate pairs of all
market rows, filtered to those whose evento_id is present in
`dim_evento_gaming` and whose mercado_id is present in `dim_mercado_gaming`
(both sets are read from the warehouse immediately before the insert). -/
def load_relations_mercado_evento_gaming (markets : List MarketRow)
    (validEvents validMarkets : List String) : List (String × String) :=
  let rows := markets.flatMap relationPairsOfRow
  rows.filter (fun p => decide (p.2 ∈ validEvents ∧ p.1 ∈ validMarkets))

/-- The `INSERT ... ON CONFLICT DO NOTHING` into
`fact_mercado_evento_gaming`, whose DDL (loader lines 203-212) declares
`UNIQUE (mercado_id, evento_id)`: a row equal to an existing one is
skipped, anything else is appended. -/
def insertFactMercadoEvento (table rows : List (String × String)) :
    List (String × String) :=
  rows.foldl (fun t p => if p ∈ t then t else t ++ [p]) table

/-- Orphan count of the validator's referential-integrity check over the
market-event fact table: rows whose evento_id or mercado_id is missing
from its dimension table. -/
def orphanCountMercadoEvento (fact : List (String × String))
    (validEvents validMarkets : List String) : Nat :=
  (fact.filter (fun p => decide (¬ (p.2 ∈ validEvents ∧ p.1 ∈ validMarkets)))).length

/-! Metrics fact load (loader_NeonDB.py lines 229-245 and 604-649). -/

/-- A row of `fact_metricas_gaming` as created by the DDL of
`create_schema_gaming` (loader lines 229-244): a SERIAL primary key
`metrica_id`, the two foreign keys and the seven metric columns. The DDL
declares no UNIQUE constraint beyond the primary key. -/
structure MetricaRow : Type where
  metrica_id : Nat
  mercado_id : String
  fecha_id : Nat
  volumen_total : Option Rat
  liquidez_total : Option Rat
  precio_ultimo : Option Rat
  mejor_compra : Option Rat
  mejor_venta : Option Rat
  spread : Option Rat
  interes_abierto : Option Rat
deriving DecidableEq

/-- The values `load_fact_metricas_gaming` computes per cleaned market row
(loader lines 619-634): everything of a `MetricaRow` except the SERIAL key. -/
structure MetricaVals : Type where
  mercado_id : String
  fecha_id : Nat
  volumen_total : Option Rat
  liquidez_total : Option Rat
  precio_ultimo : Option Rat
  mejor_compra : Option Rat
  mejor_venta : Option Rat
  spread : Option Rat
  interes_abierto : Option Rat
deriving DecidableEq

/-- PostgreSQL `nextval` of the SERIAL sequence, modelled as one past the
largest key in the table. -/
def nextMetricaId (t : List MetricaRow) : Nat :=
  (t.map (fun r => r.metrica_id)).foldl max 0 + 1

/-- Conflict test of `ON CONFLICT DO NOTHING` without a conflict target: the
insert is skipped exactly when the new row violates some unique constraint.
For `fact_metricas_gaming` the only unique constraint is the primary key
`metrica_id`. -/
def metricasConflict (a b : MetricaRow) : Bool :=
  decide (a.metrica_id = b.metrica_id)

/-- One `INSERT ... ON CONFLICT DO NOTHING` row insert into
`fact_metricas_gaming` (loader lines 636-643). -/
def insertMetricaRow (t : List MetricaRow) (v : MetricaVals) : List MetricaRow :=
  let row : MetricaRow :=
    { metrica_id := nextMetricaId t
      mercado_id := v.mercado_id
      fecha_id := v.fecha_id
      volumen_total := v.volumen_total
      liquidez_total := v.liquidez_total
      precio_ultimo := v.precio_ultimo
      mejor_compra := v.mejor_compra
      mejor_venta := v.mejor_venta
      spread := v.spread
      interes_abierto := v.interes_abierto }
  if t.any (fun r => metricasConflict r row) then t else t ++ [row]

/-- `WarehouseLoader.load_fact_metricas_gaming` (loader lines 604-649),
modelled from the per-row values onward: bulk insert with
`ON CONFLICT DO NOTHING` into the table state `t`. -/
def load_fact_metricas_gaming (t : List MetricaRow) (vs : List MetricaVals) :
    List MetricaRow :=
  vs.foldl insertMetricaRow t

/-- Number of fact rows carrying a given (mercado_id, fecha_id) pair. -/
def metricasCountPair (t : List MetricaRow) (m : String) (f : Nat) : Nat :=
  (t.filter (fun r => decide (r.mercado_id = m ∧ r.fecha_id = f))).length

/-- Concrete market row whose embedded `events` JSON references one event
present in the dimension and one absent from it. -/
def sampleGamingMarket : MarketRow :=
  { id := .str "m1",
    events := .str "[\x7b\x27id\x27: \x27e1\x27\x7d, \x7b\x27id\x27: \x27ghost\x27\x7d]" }

/-- Concrete per-row metric values for one market on one date. -/
def sampleMetricaVals : MetricaVals :=
  { mercado_id := "m1"
    fecha_id := 1
    volumen_total := some (mkRat 100 1)
    liquidez_total := Option.none
    precio_ultimo := Option.none
    mejor_compra := Option.none
    mejor_venta := Option.none
    spread := Option.none
    interes_abierto := Option.none }

/-- The two-thread, page-size-2 fake API of the end-to-end scenario: 3 total
records (a full page at offset 0 and a half page at offset 2), then empty
pages. -/
def api3 : Nat → List Nat :=
  fun o => if o = 0 then [1, 2] else if o = 2 then [3] else []

/-- A fake API whose page at offset 2 fails (degrades to empty) while the
page at offset 0 returns a single record. -/
def apiPartial : Nat → List Nat := fun o => if o = 0 then [10] else []

/-! Shared helper lemmas. -/

theorem initLeFoldlMax (l : List Nat) : ∀ a : Nat, a ≤ l.foldl max a := by
  induction l with
  | nil => intro a; simp
  | cons x t ih =>
    intro a
    calc a ≤ max a x := le_max_left a x
    _ ≤ t.foldl max (max a x) := ih (max a x)

theorem memLeFoldlMax (l : List Nat) : ∀ (a x : Nat), x ∈ l → x ≤ l.foldl max a := by
  induction l with
  | nil => intro a x hx; simp at hx
  | cons y t ih =>
    intro a x hx
    rcases List.mem_cons.mp hx with h | h
    · subst h
      calc x ≤ max a x := le_max_right a x
      _ ≤ t.foldl max (max a x) := initLeFoldlMax t (max a x)
    · exact ih (max a y) x h

theorem metricaIdLtNext (t : List MetricaRow) (r : MetricaRow) (hr : r ∈ t) :
    r.metrica_id < nextMetricaId t := by
  have : r.metrica_id ∈ t.map (fun s => s.metrica_id) :=
    List.mem_map.mpr ⟨r, hr, rfl⟩
  have := memLeFoldlMax (t.map (fun s => s.metrica_id)) 0 r.metrica_id this
  unfold nextMetricaId
  omega

theorem insertMetricaRowAppends (t : List MetricaRow) (v : MetricaVals) :
    (insertMetricaRow t v).length = t.length + 1 := by
  unfold insertMetricaRow
  have hany : (t.any (fun r => metricasConflict r
      { metrica_id := nextMetricaId t
        mercado_id := v.mercado_id
        fecha_id := v.fecha_id
        volumen_total := v.volumen_total
        liquidez_total := v.liquidez_total
        precio_ultimo := v.precio_ultimo
        mejor_compra := v.mejor_compra
        mejor_venta := v.mejor_venta
        spread := v.spread
        interes_abierto := v.interes_abierto })) = false := by
    rw [List.any_eq_false]
    intro r hr
    have := metricaIdLtNext t r hr
    simp [metricasConflict]
    omega
  simp [hany]

theorem memInsertFactMercadoEvento (p : String × String) :
    ∀ (rows t : List (String × String)),
      p ∈ insertFactMercadoEvento t rows → p ∈ t ∨ p ∈ rows := by
  intro rows
  induction rows with
  | nil => intro t h; exact Or.inl h
  | cons r rs ih =>
    intro t h
    have h2 : p ∈ (if r ∈ t then t else t ++ [r]) ∨ p ∈ rs := ih _ h
    rcases h2 with h2 | h2
    · by_cases hr : r ∈ t
      · rw [if_pos hr] at h2; exact Or.inl h2
      · rw [if_neg hr] at h2
        rcases List.mem_append.mp h2 with h3 | h3
        · exact Or.inl h3
        · exact Or.inr (List.mem_cons.mpr (Or.inl (List.mem_singleton.mp h3)))
    · exact Or.inr (List.mem_cons.mpr (Or.inr h2))

theorem lengthFlatMap {α β : Type} (f : α → List β) :
    ∀ l : List α, (l.flatMap f).length = (l.map (fun a => (f a).length)).sum := by
  intro l
  induction l with
  | nil => rfl
  | cons a t ih => simp [List.flatMap_cons, ih]

theorem sumLeOfAll (P : Nat) : ∀ l : List Nat, (∀ x ∈ l, x ≤ P) → l.sum ≤ l.length * P := by
  intro l
  induction l with
  | nil => intro _; simp
  | cons a t ih =>
    intro hb
    have h1 : a ≤ P := hb a (List.mem_cons_self a t)
    have h2 : t.sum ≤ t.length * P := ih (fun x hx => hb x (List.mem_cons_of_mem a hx))
    simp only [List.sum_cons, List.length_cons]
    calc a + t.sum ≤ P + t.length * P := Nat.add_le_add h1 h2
    _ = (t.length + 1) * P := by ring

theorem sumLtOfMemZero (P : Nat) (hP : 0 < P) :
    ∀ l : List Nat, (∀ x ∈ l, x ≤ P) → (∃ x ∈ l, x = 0) → l.sum < l.length * P := by
  intro l
  induction l with
  | nil => intro _ hz; simp at hz
  | cons a t ih =>
    intro hb hz
    simp only [List.sum_cons, List.length_cons]
    rcases hz with ⟨x, hx, hx0⟩
    rcases List.mem_cons.mp hx with h | h
    · have ha : a = 0 := by rw [← hx0, h]
      have h2 : t.sum ≤ t.length * P := sumLeOfAll P t (fun y hy => hb y (List.mem_cons_of_mem a hy))
      subst ha
      calc 0 + t.sum = t.sum := by ring
      _ ≤ t.length * P := h2
      _ < (t.length + 1) * P := by
        have hexp : (t.length + 1) * P = t.length * P + P := by ring
        rw [hexp]
        omega
    · have h2 : t.sum < t.length * P := ih (fun y hy => hb y (List.mem_cons_of_mem a hy)) ⟨x, h, hx0⟩
      have h1 : a ≤ P := hb a (List.mem_cons_self a t)
      calc a + t.sum < P + t.length * P := by omega
      _ = (t.length + 1) * P := by ring

/-! Claim theorems. -/

/-- C1: every market-event relation row inserted by
`load_relations_mercado_evento_gaming` has its evento_id in
`dim_evento_gaming` and its mercado_id in `dim_mercado_gaming` at insert
time; candidate pairs with an absent endpoint are dropped before insert and
never inserted, so the fact table loaded into the freshly created (empty)
schema has orphan count zero. -/
theorem c1_relations_referential_integrity
    (markets : List MarketRow) (validEvents validMarkets : List String) :
    orphanCountMercadoEvento
        (insertFactMercadoEvento []
          (load_relations_mercado_evento_gaming markets validEvents validMarkets))
        validEvents validMarkets = 0
    ∧ (∀ m e, (m, e) ∈ markets.flatMap relationPairsOfRow →
        ¬ (e ∈ validEvents ∧ m ∈ validMarkets) →
        (m, e) ∉ insertFactMercadoEvento []
          (load_relations_mercado_evento_gaming markets validEvents validMarkets)) := by
  have hmem : ∀ p : String × String,
      p ∈ insertFactMercadoEvento []
        (load_relations_mercado_evento_gaming markets validEvents validMarkets) →
      p.2 ∈ validEvents ∧ p.1 ∈ validMarkets := by
    intro p hp
    rcases memInsertFactMercadoEvento p _ [] hp with h | h
    · simp at h
    · unfold load_relations_mercado_evento_gaming at h
      have := List.mem_filter.mp h
      simpa using this.2
  constructor
  · unfold orphanCountMercadoEvento
    rw [List.length_eq_zero, List.filter_eq_nil_iff]
    intro p hp
    simpa using hmem p hp
  · intro m e _hcand hbad hins
    exact hbad (hmem (m, e) hins)

/-- Witness for C1: a batch with one market referencing the nonexistent
event id `ghost` loads with zero orphans, and the (m1, ghost) candidate
pair is dropped, never inserted. -/
theorem c1_relations_referential_integrity_witness :
    orphanCountMercadoEvento
        (insertFactMercadoEvento []
          (load_relations_mercado_evento_gaming [sampleGamingMarket] ["e1"] ["m1"]))
        ["e1"] ["m1"] = 0
    ∧ ("m1", "ghost") ∉ insertFactMercadoEvento []
        (load_relations_mercado_evento_gaming [sampleGamingMarket] ["e1"] ["m1"]) := by
  have h := c1_relations_referential_integrity [sampleGamingMarket] ["e1"] ["m1"]
  exact ⟨h.1, h.2 "m1" "ghost" (by decide) (by decide)⟩

/-- C2 (code bug): the `fact_metricas_gaming` DDL declares no UNIQUE
constraint on (mercado_id, fecha_id), only the SERIAL primary key, so the
`ON CONFLICT DO NOTHING` of `load_fact_metricas_gaming` never fires: every
load appends all of its rows, and re-running the load for the same
(market, date) pair inserts a second row for that pair instead of skipping
it. -/
theorem c2_metricas_snapshot_duplicated :
    (∀ (t : List MetricaRow) (vs : List MetricaVals),
        (load_fact_metricas_gaming t vs).length = t.length + vs.length)
    ∧ metricasCountPair
        (load_fact_metricas_gaming
          (load_fact_metricas_gaming [] [sampleMetricaVals]) [sampleMetricaVals])
        "m1" 1 = 2 := by
  constructor
  · intro t vs
    induction vs generalizing t with
    | nil => simp [load_fact_metricas_gaming]
    | cons v rest ih =>
      unfold load_fact_metricas_gaming at ih ⊢
      rw [List.foldl_cons, ih (insertMetricaRow t v), insertMetricaRowAppends]
      simp only [List.length_cons]
      omega
  · decide

/-- C3 counterexample: the claim says the US-format string `1,234.56` also
normalizes to 1234.56, but the comma-removal branch requires zero dots, so
`float()` receives the comma and fails, yielding the null sentinel. -/
theorem c3_us_format_counterexample :
    normalize_numeric (.str "1,234.56") = .ok Option.none
    ∧ normalize_numeric (.str "1,234.56") ≠ .ok (some (mkRat 123456 100)) :=
  ⟨by decide, by decide⟩

/-- C3 (amended): `normalize_numeric` maps the European string `1.234,56`
to 1234.56 and `abc` to the null sentinel, disambiguates by the rightmost
positions of dot and comma, and removes commas as thousands separators when
there are zero dots — but the US string `1,234.56` (comma and dot both
present, dot rightmost) is passed to `float()` unchanged and therefore
yields the null sentinel, not 1234.56. -/
theorem c3_numeric_normalization_amended :
    normalize_numeric (.str "1.234,56") = .ok (some (mkRat 123456 100))
    ∧ normalize_numeric (.str "1,234.56") = .ok Option.none
    ∧ normalize_numeric (.str "abc") = .ok Option.none
    ∧ (∀ s : String, pyStrip s ≠ "" → 0 < countChar (pyStrip s) ',' →
        countChar (pyStrip s) '.' = 0 →
        normalize_numeric (.str s)
          = .ok (pyFloatOfString (pyReplaceChar (pyStrip s) ',' "")))
    ∧ (∀ s : String, pyStrip s ≠ "" → 0 < countChar (pyStrip s) '.' →
        countChar (pyStrip s) ',' = 1 →
        pyRfind (pyStrip s) ',' > pyRfind (pyStrip s) '.' →
        normalize_numeric (.str s)
          = .ok (pyFloatOfString
              (pyReplaceChar (pyReplaceChar (pyStrip s) '.' "") ',' "."))) := by
  refine ⟨by decide, by decide, by decide, ?_, ?_⟩
  · intro s hne hc hd
    simp only [normalize_numeric, nullGuard, isnaTruth, pdIsnaScalar]
    rw [if_neg hne]
    have hcond1 : ¬ (0 < countChar (pyStrip s) '.' ∧ countChar (pyStrip s) ',' = 1 ∧
        pyRfind (pyStrip s) ',' > pyRfind (pyStrip s) '.') := by
      intro h; omega
    rw [if_neg hcond1, if_pos ⟨hc, hd⟩]
  · intro s hne hd hc hr
    simp only [normalize_numeric, nullGuard, isnaTruth, pdIsnaScalar]
    rw [if_neg hne, if_pos ⟨hd, hc, hr⟩]

/-- Witness for C3 (amended): the thousands-separator branch on `1,234`
and the European branch on `9.876,5`. -/
theorem c3_numeric_normalization_amended_witness :
    normalize_numeric (.str "1,234") = .ok (some (mkRat 1234 1))
    ∧ normalize_numeric (.str "9.876,5") = .ok (some (mkRat 98765 10)) := by
  have h4 := c3_numeric_normalization_amended.2.2.2.1 "1,234"
    (by decide) (by decide) (by decide)
  have h5 := c3_numeric_normalization_amended.2.2.2.2 "9.876,5"
    (by decide) (by decide) (by decide) (by decide)
  constructor
  · rw [h4]; decide
  · rw [h5]; decide

/-- C4 (code bug): each of the six value normalizers evaluates
`pd.isna(value)` in a boolean context outside its try-block, so a native
multi-element list input raises NumPy's ambiguous-truth ValueError instead
of returning a canonical value or the null sentinel — for `normalize_prices`
this contradicts its own docstring example `['0.45', '0.55'] -> [0.45, 0.55]`
and its explicit `isinstance(prices_str, list)` branch. The same input in
its JSON-in-string form is handled fine (last conjunct). -/
theorem c4_normalizers_raise_on_lists :
    normalize_prices (.list (pyList [.str "0.45", .str "0.55"])) = .error .ambiguousTruth
    ∧ normalize_boolean (.list (pyList [.bool true, .bool false])) = .error .ambiguousTruth
    ∧ normalize_numeric (.list (pyList [.int 1, .int 2])) = .error .ambiguousTruth
    ∧ clean_string (.list (pyList [.str "a", .str "b"])) 5000 = .error .ambiguousTruth
    ∧ normalize_outcomes (.list (pyList [.str "a", .str "b"])) = .error .ambiguousTruth
    ∧ parse_tags (.list (pyList [.str "a", .str "b"])) = .error .ambiguousTruth
    ∧ normalize_prices (.str "[\x270.45\x27, \x270.55\x27]")
        = .ok (some (pyList [.float (mkRat 45 100), .float (mkRat 55 100)])) :=
  ⟨rfl, by decide, by decide, by decide, by decide, by decide, rfl⟩

/-- C6 counterexample: the claim says numeric values other than 0 and 1
yield the null sentinel, but `normalize_boolean(2)` returns True because
any numeric maps through `bool(int(value))`. -/
theorem c6_boolean_counterexample :
    normalize_boolean (.int 2) = .ok (some true)
    ∧ normalize_boolean (.int 2) ≠ .ok Option.none :=
  ⟨by decide, by decide⟩

/-- C6 (amended): `normalize_boolean` returns True on the recognized truthy
tokens and native True, False on the falsy tokens and native False, and the
null sentinel on unrecognized strings, None, NaN and dict inputs; a
numeric input however maps through `bool(int(value))` — True exactly when
the truncation is nonzero (e.g. 2 gives True, 0.5 gives False) — rather
than the null sentinel for values other than 0 and 1. (List inputs are
outside this statement: the `pd.isna` guard raises on multi-element lists,
as established separately.) -/
theorem c6_boolean_normalization_amended :
    (∀ b : Bool, normalize_boolean (.bool b) = .ok (some b))
    ∧ (∀ n : Int, normalize_boolean (.int n) = .ok (some (decide (n ≠ 0))))
    ∧ (∀ x : Rat, normalize_boolean (.float x) = .ok (some (decide (pyTrunc x ≠ 0))))
    ∧ (∀ s : String, pyStrip (pyLower s) ∈ ["true", "yes", "1", "t", "y", "si", "sí"] →
        normalize_boolean (.str s) = .ok (some true))
    ∧ (∀ s : String, pyStrip (pyLower s) ∈ ["false", "no", "0", "f", "n"] →
        normalize_boolean (.str s) = .ok (some false))
    ∧ (∀ s : String,
        pyStrip (pyLower s) ∉ ["true", "yes", "1", "t", "y", "si", "sí"] →
        pyStrip (pyLower s) ∉ ["false", "no", "0", "f", "n"] →
        normalize_boolean (.str s) = .ok Option.none)
    ∧ normalize_boolean .null = .ok Option.none
    ∧ normalize_boolean .nan = .ok Option.none
    ∧ (∀ d : PyDict, normalize_boolean (.dict d) = .ok Option.none) := by
  refine ⟨fun b => rfl, fun n => rfl, fun x => rfl, ?_, ?_, ?_, rfl, rfl, fun d => rfl⟩
  · intro s h
    simp only [normalize_boolean, nullGuard, isnaTruth, pdIsnaScalar]
    rw [if_pos h]
  · intro s h
    simp only [normalize_boolean, nullGuard, isnaTruth, pdIsnaScalar]
    have h1 : pyStrip (pyLower s) ∉ ["true", "yes", "1", "t", "y", "si", "sí"] := by
      intro hmem
      simp only [List.mem_cons, List.not_mem_nil, or_false] at h hmem
      rcases h with h | h | h | h | h <;> rw [h] at hmem <;> revert hmem <;> decide
    rw [if_neg h1, if_pos h]
  · intro s h1 h2
    simp only [normalize_boolean, nullGuard, isnaTruth, pdIsnaScalar]
    rw [if_neg h1, if_neg h2]

/-- Witness for C6 (amended): instantiates the string clauses at `True` (a
truthy token after lowering), `no` (a falsy token) and `garbage`
(unrecognized). -/
theorem c6_boolean_normalization_amended_witness :
    normalize_boolean (.str "True") = .ok (some true)
    ∧ normalize_boolean (.str "no") = .ok (some false)
    ∧ normalize_boolean (.str "garbage") = .ok Option.none :=
  ⟨c6_boolean_normalization_amended.2.2.2.1 "True" (by decide),
   c6_boolean_normalization_amended.2.2.2.2.1 "no" (by decide),
   c6_boolean_normalization_amended.2.2.2.2.2.1 "garbage" (by decide) (by decide)⟩

/-- C7 counterexample: the claim says `clean_string(" a   b \x01")` returns
exactly `a b` with no trailing whitespace, but the control character is
removed only after trimming and whitespace collapsing, so the space that
preceded it survives at the end: the result is `a b ` (trailing space). -/
theorem c7_clean_string_counterexample :
    clean_string (.str " a   b \x01") 5000 = .ok (some "a b ")
    ∧ clean_string (.str " a   b \x01") 5000 ≠ .ok (some "a b") :=
  ⟨by decide, by decide⟩

/-- C7 (amended): `clean_string` trims, collapses internal whitespace runs,
strips control characters below 32 (the newline/tab/carriage-return
exemption included), truncates to the caller-specified maximum and maps
empty-after-trim input to the null sentinel — but because control
characters are removed after the trim and the collapse, a removed control
character can leave a trailing space: on `" a   b \x01"` the result is
`"a b "`, not `"a b"`. -/
theorem c7_clean_string_amended :
    clean_string (.str " a   b \x01") 5000 = .ok (some "a b ")
    ∧ (∀ (s : String) (maxLen : Nat) (out : String),
        clean_string (.str s) maxLen = .ok (some out) →
          out ≠ ""
          ∧ out.length ≤ maxLen
          ∧ ∀ c ∈ out.data, 32 ≤ c.toNat ∨ c = '\n' ∨ c = '\t' ∨ c = '\r')
    ∧ (∀ maxLen : Nat, clean_string (.str "   ") maxLen = .ok Option.none) := by
  refine ⟨by decide, ?_, ?_⟩
  · intro s maxLen out h
    have h' : cleanStringCore s maxLen = some out := by
      simpa [clean_string, nullGuard, isnaTruth, pdIsnaScalar, pyStr] using h
    simp only [cleanStringCore] at h'
    split_ifs at h' with h1 h2
    have hout : String.mk ((" ".intercalate (pySplit (pyStrip s))).data.filter
        (fun c => decide (32 ≤ c.toNat) || c == '\n' || c == '\t' || c == '\r')
        |>.take maxLen) = out := Option.some.inj h'
    refine ⟨by rw [← hout]; exact h2, ?_, ?_⟩
    · rw [← hout]
      simp [String.length]
    · intro c hc
      rw [← hout] at hc
      have hc2 := List.mem_of_mem_take hc
      have h3 := List.of_mem_filter hc2
      simp only [Bool.or_eq_true, decide_eq_true_iff, beq_iff_eq] at h3
      tauto
  · intro maxLen
    have hstrip : pyStrip "   " = "" := by decide
    simp [clean_string, nullGuard, isnaTruth, pdIsnaScalar, pyStr, cleanStringCore, hstrip]

/-- Witness for C7 (amended): the guarantee clause applied to the concrete
input with max length 3, and the empty-after-trim clause at max length 7. -/
theorem c7_clean_string_amended_witness :
    clean_string (.str " a   b \x01") 3 = .ok (some "a b")
    ∧ ("a b" ≠ "" ∧ "a b".length ≤ 3)
    ∧ clean_string (.str "   ") 7 = .ok Option.none := by
  have hgen := c7_clean_string_amended.2.1 " a   b \x01" 3 "a b" (by decide)
  exact ⟨by decide, ⟨hgen.1, hgen.2.1⟩, c7_clean_string_amended.2.2 7⟩

/-- C8 counterexample: the claim says any response shape other than a bare
array or a recognized object is returned as a single-element result holding
the whole body, but `fetch_page` only wraps dict bodies: a bare JSON string
(or number, or boolean) body falls through to `return []`. -/
theorem c8_fetch_page_counterexample :
    fetch_page "markets" (.success (.str "hello")) = .list .nil
    ∧ fetch_page "markets" (.success (.str "hello"))
        ≠ .list (.cons (.str "hello") .nil) := by
  refine ⟨rfl, ?_⟩
  intro h
  have h2 : PyVal.list PyList.nil = PyVal.list (.cons (.str "hello") .nil) := h
  simp at h2

/-- C8 (amended): `fetch_page` returns a bare JSON array as is, the value
under the `data` key of an object body, else the value under the
endpoint-name key, and wraps an object with neither key as a one-element
result; network errors, non-2xx statuses and JSON-decode failures map to an
empty result — but a non-array, non-object body (string, number, boolean,
null) also maps to the empty result, not to a single-element wrapping. -/
theorem c8_fetch_page_amended :
    (∀ (e : String) (xs : PyList), fetch_page e (.success (.list xs)) = .list xs)
    ∧ (∀ (e : String) (d : PyDict) (v : PyVal), pyDictGet d "data" = some v →
        fetch_page e (.success (.dict d)) = v)
    ∧ (∀ (e : String) (d : PyDict) (v : PyVal), pyDictGet d "data" = Option.none →
        pyDictGet d e = some v → fetch_page e (.success (.dict d)) = v)
    ∧ (∀ (e : String) (d : PyDict), pyDictGet d "data" = Option.none →
        pyDictGet d e = Option.none →
        fetch_page e (.success (.dict d)) = .list (.cons (.dict d) .nil))
    ∧ (∀ e : String, fetch_page e .requestError = .list .nil)
    ∧ (∀ e : String, fetch_page e .jsonError = .list .nil)
    ∧ (∀ (e : String) (v : PyVal), isListVal v = false → isDictVal v = false →
        fetch_page e (.success v) = .list .nil) := by
  refine ⟨fun e xs => rfl, ?_, ?_, ?_, fun e => rfl, fun e => rfl, ?_⟩
  · intro e d v h
    simp [fetch_page, h]
  · intro e d v h1 h2
    simp [fetch_page, h1, h2]
  · intro e d h1 h2
    simp [fetch_page, h1, h2]
  · intro e v h1 h2
    cases v <;> simp_all [fetch_page, isListVal, isDictVal]

/-- Witness for C8 (amended): the data-key, endpoint-key and wrapping
clauses applied to concrete object bodies for the `markets` endpoint. -/
theorem c8_fetch_page_amended_witness :
    fetch_page "markets" (.success (.dict (pyDict [("data", .list (pyList [.int 1]))])))
        = .list (pyList [.int 1])
    ∧ fetch_page "markets" (.success (.dict (pyDict [("markets", .int 5)]))) = .int 5
    ∧ fetch_page "markets" (.success (.dict (pyDict [("other", .int 7)])))
        = .list (.cons (.dict (pyDict [("other", .int 7)])) .nil) :=
  ⟨c8_fetch_page_amended.2.1 "markets" _ _ rfl,
   c8_fetch_page_amended.2.2.1 "markets" _ _ rfl rfl,
   c8_fetch_page_amended.2.2.2.1 "markets" _ rfl rfl⟩

/-- C9 (code bug): `load_dim_mercado_gaming` maps each market to the seeded
`dim_videojuego` catalog by exact name match and is meant to fall back to
an `Other Gaming` entry, but the seeded catalog contains no such entry
(`juego_map.get('Other Gaming')` is None), so a market whose classified
game type (e.g. `Minecraft`, produced by `extract_gaming_type`) has no
exact catalog match is loaded with a NULL videojuego_id instead of
referencing a catalog entry. -/
theorem c9_game_catalog_fallback_missing :
    extract_gaming_type (.str "Will Minecraft reach one billion players?")
        = some "Minecraft"
    ∧ videojuegoIdFor (some "Minecraft") = Option.none
    ∧ videojuegoIdFor Option.none = Option.none
    ∧ lookupVideojuego "Other Gaming" = Option.none
    ∧ videojuegoIdFor (some "Valorant") = some 2 :=
  ⟨by decide, by decide, by decide, by decide, by decide⟩

theorem extractLoopStop {α : Type} (api : Nat → List α)
    (threads pageSize fuel offset : Nat) (acc : List α)
    (h : (fetchRound api offset pageSize threads).length < threads * pageSize) :
    extractLoop api threads pageSize (fuel + 1) offset acc
      = acc ++ fetchRound api offset pageSize threads := by
  simp only [extractLoop]
  by_cases hb : (fetchRound api offset pageSize threads).isEmpty
  · rw [if_pos hb]
    have hnil : fetchRound api offset pageSize threads = [] := List.isEmpty_iff.mp hb
    rw [hnil, List.append_nil]
  · rw [if_neg hb, if_pos h]

theorem extractRoundsStop {α : Type} (api : Nat → List α)
    (threads pageSize fuel offset : Nat)
    (h : (fetchRound api offset pageSize threads).length < threads * pageSize) :
    extractRoundsCount api threads pageSize (fuel + 1) offset = 1 := by
  simp only [extractRoundsCount]
  by_cases hb : (fetchRound api offset pageSize threads).isEmpty
  · rw [if_pos hb]
  · rw [if_neg hb, if_pos h]

/-- C5: the round loop of `extract_endpoint_parallel` stops issuing further
rounds exactly when a round's total yielded records are fewer than
`threads * pageSize` (in which case it returns the accumulator extended by
that round, i.e. the concatenation of all records yielded so far, after a
single further round) or a round yields zero records; a full non-empty
round instead continues at the next offset block. -/
theorem c5_fetcher_exhaustion {α : Type} (api : Nat → List α)
    (threads pageSize fuel offset : Nat) (acc : List α) :
    ((fetchRound api offset pageSize threads).length < threads * pageSize →
      extractLoop api threads pageSize (fuel + 1) offset acc
          = acc ++ fetchRound api offset pageSize threads
        ∧ extractRoundsCount api threads pageSize (fuel + 1) offset = 1)
    ∧ (threads * pageSize ≤ (fetchRound api offset pageSize threads).length ∧
        fetchRound api offset pageSize threads ≠ [] →
      extractLoop api threads pageSize (fuel + 1) offset acc
          = extractLoop api threads pageSize fuel (offset + threads * pageSize)
              (acc ++ fetchRound api offset pageSize threads)
        ∧ extractRoundsCount api threads pageSize (fuel + 1) offset
            = 1 + extractRoundsCount api threads pageSize fuel
                (offset + threads * pageSize)) := by
  constructor
  · intro h
    exact ⟨extractLoopStop api threads pageSize fuel offset acc h,
      extractRoundsStop api threads pageSize fuel offset h⟩
  · intro ⟨h1, h2⟩
    have hb : ¬ (fetchRound api offset pageSize threads).isEmpty = true :=
      fun hb' => h2 (List.isEmpty_iff.mp hb')
    constructor
    · simp only [extractLoop]
      rw [if_neg hb, if_neg (by omega)]
    · simp only [extractRoundsCount]
      rw [if_neg hb, if_neg (by omega)]

/-- Witness for C5: with 2 threads and page size 2 against an API returning
3 total records then empty pages, the fetcher returns exactly 3 records and
terminates after a single round. -/
theorem c5_fetcher_exhaustion_witness :
    extract_endpoint_parallel api3 2 2 9 = [1, 2, 3]
    ∧ extractRoundsCount api3 2 2 9 0 = 1 := by
  have h := (c5_fetcher_exhaustion api3 2 2 8 0 []).1 (by decide)
  constructor
  · show extractLoop api3 2 2 (8 + 1) 0 [] = [1, 2, 3]
    rw [h.1]
    decide
  · exact h.2

/-- C10 (implicit): in a round where at least one of the concurrent page
requests yields the empty list (for example because it failed and degraded
to empty) while every request yields at most a full page, the round total
is necessarily below `threads * pageSize`, so the loop appends that round's
partial data and terminates, and the offsets ever requested are exactly the
offsets of that final round — offsets beyond it are never requested. -/
theorem c10_partial_round_truncation {α : Type} (api : Nat → List α)
    (threads pageSize fuel offset : Nat) (acc : List α)
    (hp : 0 < pageSize)
    (hfail : ∃ i, i < threads ∧ api (offset + i * pageSize) = [])
    (hbound : ∀ i, i < threads → (api (offset + i * pageSize)).length ≤ pageSize) :
    (fetchRound api offset pageSize threads).length < threads * pageSize
    ∧ extractLoop api threads pageSize (fuel + 1) offset acc
        = acc ++ fetchRound api offset pageSize threads
    ∧ requestedOffsets api threads pageSize (fuel + 1) offset
        = (List.range threads).map (fun i => offset + i * pageSize) := by
  have hlen : (fetchRound api offset pageSize threads).length < threads * pageSize := by
    have heq : (fetchRound api offset pageSize threads).length
        = ((List.range threads).map (fun i => (api (offset + i * pageSize)).length)).sum := by
      unfold fetchRound
      rw [lengthFlatMap]
    rw [heq]
    have hlenlen : ((List.range threads).map
        (fun i => (api (offset + i * pageSize)).length)).length = threads := by
      simp
    have hmain := sumLtOfMemZero pageSize hp
      ((List.range threads).map (fun i => (api (offset + i * pageSize)).length))
      (by
        intro x hx
        rcases List.mem_map.mp hx with ⟨i, hi, hix⟩
        rw [← hix]
        exact hbound i (List.mem_range.mp hi))
      (by
        rcases hfail with ⟨i, hi, hzero⟩
        exact ⟨(api (offset + i * pageSize)).length,
          List.mem_map.mpr ⟨i, List.mem_range.mpr hi, rfl⟩, by rw [hzero]; rfl⟩)
    rw [hlenlen] at hmain
    exact hmain
  refine ⟨hlen, extractLoopStop api threads pageSize fuel offset acc hlen, ?_⟩
  · simp only [requestedOffsets]
    by_cases hb : (fetchRound api offset pageSize threads).isEmpty
    · rw [if_pos hb]
    · rw [if_neg hb, if_pos hlen]

/-- Witness for C10: with 2 threads and page size 2, a round with one
failed (empty) page and one half page stops after appending the single
record, having requested exactly the offsets 0 and 2. -/
theorem c10_partial_round_truncation_witness :
    (fetchRound apiPartial 0 2 2).length < 2 * 2
    ∧ extractLoop apiPartial 2 2 (8 + 1) 0 [] = [10]
    ∧ requestedOffsets apiPartial 2 2 (8 + 1) 0 = [0, 2] := by
  have h := c10_partial_round_truncation apiPartial 2 2 8 0 []
    (by decide)
    ⟨1, by omega, by decide⟩
    (by intro i hi; interval_cases i <;> decide)
  refine ⟨h.1, ?_, ?_⟩
  · rw [h.2.1]; decide
  · rw [h.2.2]; decide

end RA2
